import Mathlib

/-!
Verification of the particle-interaction simulation core (`soup.cpp` / `soup.hpp`).

The float arithmetic of the source is modelled over the real numbers; every
arithmetic step (toroidal delta fold, zone masks, repulsion and triangular
envelope formulas, friction, branchless speed cap, position wrap) is translated
expression by expression from `updateSimulation` and `initSimulation`.
-/

namespace Soup

noncomputable section

open Set

/-- Number of species (`numSpecies` in `soup.hpp`). -/
def numSpecies : ℕ := 3

/-- Particles per species (`perSpecies` in `soup.hpp`). -/
def perSpecies : ℕ := 500

/-- Total particle count (`numParticles = numSpecies * perSpecies`). -/
def numParticles : ℕ := numSpecies * perSpecies

/-- Repulsion-zone radius (`rMin` in `soup.hpp`). -/
def rMin : ℝ := 15

/-- Interaction-zone radius (`rMax` in `soup.hpp`). -/
def rMax : ℝ := 200

/-- Per-frame velocity damping fraction (`friction` in `soup.hpp`). -/
def friction : ℝ := 0.035

/-- Matrix force intensity multiplier (`forceScale` in `soup.hpp`). -/
def forceScale : ℝ := 25

/-- Inner-zone repulsion multiplier (`repulsionScale` in `soup.hpp`). -/
def repulsionScale : ℝ := 250

/-- Hard speed cap in pixels per second (`maxSpeed` in `soup.hpp`). -/
def maxSpeed : ℝ := 300

/-- Predator attraction coefficient (`hunt` in `soup.hpp`). -/
def hunt : ℝ := 0.75

/-- Prey repulsion coefficient (`flee` in `soup.hpp`). -/
def flee : ℝ := -0.25

/-- Same-species cohesion coefficient (`self` in `soup.hpp`). -/
def selfCoeff : ℝ := 1

/-- Species interaction matrix (`forceMatrix` in `soup.hpp`); rows and columns
beyond the three declared species are junk (the source never indexes them). -/
def forceMatrix : ℕ → ℕ → ℝ := fun i j =>
  match i, j with
  | 0, 0 => selfCoeff
  | 0, 1 => hunt
  | 0, 2 => flee
  | 1, 0 => flee
  | 1, 1 => selfCoeff
  | 1, 2 => hunt
  | 2, 0 => hunt
  | 2, 1 => flee
  | 2, 2 => selfCoeff
  | _, _ => 0

/-- Struct-of-arrays particle store (`struct Particles` in `soup.hpp`),
generalized over the particle count. -/
structure Particles (n : ℕ) where
  posX : Fin n → ℝ
  posY : Fin n → ℝ
  velX : Fin n → ℝ
  velY : Fin n → ℝ
  species : Fin n → ℕ

/-- Integer result of `std::round` / Eigen `.round()`: round to nearest,
halfway cases away from zero. -/
def roundHalfAwayInt (x : ℝ) : ℤ := if 0 ≤ x then ⌊x + 1 / 2⌋ else ⌈x - 1 / 2⌉

/-- Real-valued `std::round`. -/
def roundHalfAway (x : ℝ) : ℝ := (roundHalfAwayInt x : ℤ)

/-- Toroidal shortest-displacement fold of one component
(`delta -= (delta / extent).round() * extent`, `soup.cpp` lines 68-69). -/
def wrapDelta (extent d : ℝ) : ℝ := d - roundHalfAway (d / extent) * extent

/-- Toroidal position wrap of one component
(`pos -= (pos / extent).floor() * extent`, `soup.cpp` lines 138-139). -/
def wrapPos (extent x : ℝ) : ℝ := x - ⌊x / extent⌋ * extent

/-- Modelled from the spec and `soup.cpp` lines 26-37: `initSimulation`.
The `std::mt19937` generator with `std::uniform_real_distribution<float>
random(0.0f, screenWidth)` is modelled by a stream `u` of unit-interval
draws scaled by `screenWidth`; the source constructs this single
distribution from `screenWidth` and calls it for both `posX` and `posY`
(two draws per index, x first), and its `screenHeight` parameter is unused,
which the model reproduces faithfully. -/
def initSimulation (u : ℕ → ℝ) (screenWidth screenHeight : ℝ) :
    Particles numParticles :=
  { posX := fun index => u (2 * index.val) * screenWidth
    posY := fun index => u (2 * index.val + 1) * screenWidth
    velX := fun _ => 0
    velY := fun _ => 0
    species := fun index => index.val / perSpecies }

/-- Ratio of the inner radius to the outer radius (`beta = rMin / rMax`). -/
def beta : ℝ := rMin / rMax

/-- Precomputed `1.0f / beta` (`soup.cpp` line 50). -/
def inverseBeta : ℝ := 1 / beta

/-- Precomputed `1.0f - beta` (`soup.cpp` line 51). -/
def triangleDenominator : ℝ := 1 - beta

/-- Precomputed `rMax * rMax` (`soup.cpp` line 52). -/
def rMaxSquared : ℝ := rMax * rMax

variable {n : ℕ}

/-- Wrapped x-displacement from particle `i` to particle `j`
(`soup.cpp` lines 61 and 68). -/
def deltaX (p : Particles n) (screenWidth : ℝ) (i j : Fin n) : ℝ :=
  wrapDelta screenWidth (p.posX j - p.posX i)

/-- Wrapped y-displacement from particle `i` to particle `j`
(`soup.cpp` lines 62 and 69). -/
def deltaY (p : Particles n) (screenHeight : ℝ) (i j : Fin n) : ℝ :=
  wrapDelta screenHeight (p.posY j - p.posY i)

/-- Squared wrapped distance (`soup.cpp` line 73). -/
def distanceSquared (p : Particles n) (screenWidth screenHeight : ℝ)
    (i j : Fin n) : ℝ :=
  deltaX p screenWidth i j * deltaX p screenWidth i j +
    deltaY p screenHeight i j * deltaY p screenHeight i j

/-- Epsilon-guarded distance `distanceSquared.sqrt().max(1e-6f)`
(`soup.cpp` line 78). -/
def distance (p : Particles n) (screenWidth screenHeight : ℝ)
    (i j : Fin n) : ℝ :=
  max (Real.sqrt (distanceSquared p screenWidth screenHeight i j)) (1e-6)

/-- Reciprocal distance (`soup.cpp` line 79). -/
def inverseDistance (p : Particles n) (screenWidth screenHeight : ℝ)
    (i j : Fin n) : ℝ :=
  1 / distance p screenWidth screenHeight i j

/-- Distance as a fraction of the outer radius (`soup.cpp` line 80). -/
def normalizedDistance (p : Particles n) (screenWidth screenHeight : ℝ)
    (i j : Fin n) : ℝ :=
  distance p screenWidth screenHeight i j / rMax

/-- Active mask `(distanceSquared < rMaxSquared && distanceSquared > 1e-6f)`
cast to 0/1 (`soup.cpp` line 83). -/
def activeMask (p : Particles n) (screenWidth screenHeight : ℝ)
    (i j : Fin n) : ℝ :=
  if distanceSquared p screenWidth screenHeight i j < rMaxSquared ∧
      distanceSquared p screenWidth screenHeight i j > 1e-6 then 1 else 0

/-- Inner-zone mask as a function of the normalized distance
(`normalizedDistance < beta`, `soup.cpp` line 86). -/
def innerMaskAt (d : ℝ) : ℝ := if d < beta then 1 else 0

/-- Inner-zone repulsion formula
(`(normalizedDistance * inverseBeta - 1.0f) * repulsionScale`,
`soup.cpp` line 89). -/
def repulsionAt (d : ℝ) : ℝ := (d * inverseBeta - 1) * repulsionScale

/-- Outer-zone mask as a function of the normalized distance
(`normalizedDistance >= beta && normalizedDistance < 1.0f`,
`soup.cpp` line 92). -/
def outerMaskAt (d : ℝ) : ℝ := if beta ≤ d ∧ d < 1 then 1 else 0

/-- Triangular envelope
(`1.0f - (1.0f + beta - 2.0f * normalizedDistance).abs() / triangleDenominator`,
`soup.cpp` line 105). -/
def triangleWaveAt (d : ℝ) : ℝ := 1 - |1 + beta - 2 * d| / triangleDenominator

/-- Combined zone-masked force magnitude at a given matrix coefficient `m`
and normalized distance `d`: the bracket of `soup.cpp` line 109 with
`interactionForce` expanded per lines 97 and 106. -/
def forceMagnitudeAt (m d : ℝ) : ℝ :=
  innerMaskAt d * repulsionAt d + outerMaskAt d * (m * forceScale * triangleWaveAt d)

/-- Pairwise inner mask (`soup.cpp` line 86). -/
def innerMask (p : Particles n) (screenWidth screenHeight : ℝ)
    (i j : Fin n) : ℝ :=
  innerMaskAt (normalizedDistance p screenWidth screenHeight i j)

/-- Pairwise repulsion magnitude (`soup.cpp` line 89). -/
def repulsionForce (p : Particles n) (screenWidth screenHeight : ℝ)
    (i j : Fin n) : ℝ :=
  repulsionAt (normalizedDistance p screenWidth screenHeight i j)

/-- Pairwise outer mask (`soup.cpp` line 92). -/
def outerMask (p : Particles n) (screenWidth screenHeight : ℝ)
    (i j : Fin n) : ℝ :=
  outerMaskAt (normalizedDistance p screenWidth screenHeight i j)

/-- Species-pair matrix coefficient scaled by `forceScale`
(`soup.cpp` line 97). -/
def matrixValue (p : Particles n) (i j : Fin n) : ℝ :=
  forceMatrix (p.species i) (p.species j) * forceScale

/-- Pairwise triangular envelope (`soup.cpp` line 105). -/
def triangleWave (p : Particles n) (screenWidth screenHeight : ℝ)
    (i j : Fin n) : ℝ :=
  triangleWaveAt (normalizedDistance p screenWidth screenHeight i j)

/-- Pairwise outer-zone interaction magnitude (`soup.cpp` line 106). -/
def interactionForce (p : Particles n) (screenWidth screenHeight : ℝ)
    (i j : Fin n) : ℝ :=
  matrixValue p i j * triangleWave p screenWidth screenHeight i j

/-- Pairwise zone-combined, activity-gated force magnitude
(`soup.cpp` line 109). -/
def totalForce (p : Particles n) (screenWidth screenHeight : ℝ)
    (i j : Fin n) : ℝ :=
  activeMask p screenWidth screenHeight i j *
    (innerMask p screenWidth screenHeight i j *
        repulsionForce p screenWidth screenHeight i j +
      outerMask p screenWidth screenHeight i j *
        interactionForce p screenWidth screenHeight i j)

/-- One neighbor's contribution to the x-force sum
(`totalForce * deltaX * inverseDistance`, `soup.cpp` line 114). -/
def forceTermX (p : Particles n) (screenWidth screenHeight : ℝ)
    (i j : Fin n) : ℝ :=
  totalForce p screenWidth screenHeight i j * deltaX p screenWidth i j *
    inverseDistance p screenWidth screenHeight i j

/-- One neighbor's contribution to the y-force sum
(`totalForce * deltaY * inverseDistance`, `soup.cpp` line 115). -/
def forceTermY (p : Particles n) (screenWidth screenHeight : ℝ)
    (i j : Fin n) : ℝ :=
  totalForce p screenWidth screenHeight i j * deltaY p screenHeight i j *
    inverseDistance p screenWidth screenHeight i j

/-- Total x-force on particle `i` (`soup.cpp` line 114). -/
def forceX (p : Particles n) (screenWidth screenHeight : ℝ) (i : Fin n) : ℝ :=
  ∑ j, forceTermX p screenWidth screenHeight i j

/-- Total y-force on particle `i` (`soup.cpp` line 115). -/
def forceY (p : Particles n) (screenWidth screenHeight : ℝ) (i : Fin n) : ℝ :=
  ∑ j, forceTermY p screenWidth screenHeight i j

/-- Velocity x-component after friction and force impulse
(`soup.cpp` line 121). -/
def velX1 (p : Particles n) (dt screenWidth screenHeight : ℝ) (i : Fin n) : ℝ :=
  p.velX i * (1 - friction) + forceX p screenWidth screenHeight i * dt

/-- Velocity y-component after friction and force impulse
(`soup.cpp` line 122). -/
def velY1 (p : Particles n) (dt screenWidth screenHeight : ℝ) (i : Fin n) : ℝ :=
  p.velY i * (1 - friction) + forceY p screenWidth screenHeight i * dt

/-- Epsilon-guarded speed (`soup.cpp` line 126). -/
def speed (p : Particles n) (dt screenWidth screenHeight : ℝ) (i : Fin n) : ℝ :=
  max (Real.sqrt (velX1 p dt screenWidth screenHeight i *
      velX1 p dt screenWidth screenHeight i +
    velY1 p dt screenWidth screenHeight i *
      velY1 p dt screenWidth screenHeight i)) (1e-6)

/-- Branchless speed-cap multiplier (`(maxSpeed / speed).min(1.0f)`,
`soup.cpp` line 127). -/
def speedScale (p : Particles n) (dt screenWidth screenHeight : ℝ)
    (i : Fin n) : ℝ :=
  min (maxSpeed / speed p dt screenWidth screenHeight i) 1

/-- Capped velocity x-component (`soup.cpp` line 128). -/
def velX2 (p : Particles n) (dt screenWidth screenHeight : ℝ) (i : Fin n) : ℝ :=
  velX1 p dt screenWidth screenHeight i * speedScale p dt screenWidth screenHeight i

/-- Capped velocity y-component (`soup.cpp` line 129). -/
def velY2 (p : Particles n) (dt screenWidth screenHeight : ℝ) (i : Fin n) : ℝ :=
  velY1 p dt screenWidth screenHeight i * speedScale p dt screenWidth screenHeight i

/-- Unwrapped updated x-position (`soup.cpp` line 133). -/
def posX1 (p : Particles n) (dt screenWidth screenHeight : ℝ) (i : Fin n) : ℝ :=
  p.posX i + velX2 p dt screenWidth screenHeight i * dt

/-- Unwrapped updated y-position (`soup.cpp` line 134). -/
def posY1 (p : Particles n) (dt screenWidth screenHeight : ℝ) (i : Fin n) : ℝ :=
  p.posY i + velY2 p dt screenWidth screenHeight i * dt

/-- One full simulation step (`updateSimulation`, `soup.cpp` lines 45-140):
force accumulation from pre-step positions, friction and impulse, branchless
speed cap, integration, toroidal wrap. -/
def updateSimulation (p : Particles n) (dt screenWidth screenHeight : ℝ) :
    Particles n :=
  { posX := fun i => wrapPos screenWidth (posX1 p dt screenWidth screenHeight i)
    posY := fun i => wrapPos screenHeight (posY1 p dt screenWidth screenHeight i)
    velX := fun i => velX2 p dt screenWidth screenHeight i
    velY := fun i => velY2 p dt screenWidth screenHeight i
    species := p.species }

/-- A one-particle state at the origin, at rest. -/
def pOne : Particles 1 :=
  { posX := ![0]
    posY := ![0]
    velX := ![0]
    velY := ![0]
    species := ![0] }

/-- A two-particle state whose wrapped squared distance is exactly `1e-6`:
positive, far below `rMaxSquared`, yet rejected by the active mask. -/
def pPair : Particles 2 :=
  { posX := ![0, 1 / 1000]
    posY := ![0, 0]
    velX := ![0, 0]
    velY := ![0, 0]
    species := ![0, 0] }

/-- Two same-species particles at rest at wrapped distance `rMax / 2 = 100`
in a 200 x 200 world (the end-to-end cohesion scenario). -/
def pCohesion : Particles 2 :=
  { posX := ![0, 60]
    posY := ![0, 80]
    velX := ![0, 0]
    velY := ![0, 0]
    species := ![0, 0] }

/-- Index 0 of the full particle range. -/
def idx0 : Fin numParticles := ⟨0, by norm_num [numParticles, numSpecies, perSpecies]⟩

/-! ### Basic facts about the wrap operations -/

lemma wrapPos_nonneg (extent x : ℝ) (he : 0 < extent) : 0 ≤ wrapPos extent x := by
  unfold wrapPos
  have h1 : (⌊x / extent⌋ : ℝ) ≤ x / extent := Int.floor_le _
  have h2 : (⌊x / extent⌋ : ℝ) * extent ≤ x / extent * extent :=
    mul_le_mul_of_nonneg_right h1 he.le
  rw [div_mul_cancel₀ x he.ne'] at h2
  linarith

lemma wrapPos_lt (extent x : ℝ) (he : 0 < extent) : wrapPos extent x < extent := by
  unfold wrapPos
  have h1 : x / extent < (⌊x / extent⌋ : ℝ) + 1 := Int.lt_floor_add_one _
  have h2 : x / extent * extent < ((⌊x / extent⌋ : ℝ) + 1) * extent :=
    mul_lt_mul_of_pos_right h1 he
  rw [div_mul_cancel₀ x he.ne'] at h2
  linarith

lemma abs_sub_roundHalfAway (x : ℝ) : |x - roundHalfAway x| ≤ 1 / 2 := by
  unfold roundHalfAway roundHalfAwayInt
  split_ifs with h
  · have h1 : (⌊x + 1 / 2⌋ : ℝ) ≤ x + 1 / 2 := Int.floor_le _
    have h2 : x + 1 / 2 < (⌊x + 1 / 2⌋ : ℝ) + 1 := Int.lt_floor_add_one _
    rw [abs_le]
    constructor <;> push_cast <;> linarith
  · have h1 : x - 1 / 2 ≤ (⌈x - 1 / 2⌉ : ℝ) := Int.le_ceil _
    have h2 : (⌈x - 1 / 2⌉ : ℝ) < x - 1 / 2 + 1 := Int.ceil_lt_add_one _
    rw [abs_le]
    constructor <;> push_cast <;> linarith

lemma wrapDelta_eq_sub_int (extent d : ℝ) :
    wrapDelta extent d = d - (roundHalfAwayInt (d / extent) : ℝ) * extent := rfl

lemma wrapDelta_factor (extent d : ℝ) (he : extent ≠ 0) :
    wrapDelta extent d = (d / extent - roundHalfAway (d / extent)) * extent := by
  unfold wrapDelta
  rw [sub_mul, div_mul_cancel₀ d he]

lemma abs_wrapDelta_le (extent d : ℝ) (he : 0 < extent) :
    |wrapDelta extent d| ≤ extent / 2 := by
  rw [wrapDelta_factor extent d he.ne', abs_mul, abs_of_pos he]
  have h := abs_sub_roundHalfAway (d / extent)
  nlinarith [abs_nonneg (d / extent - roundHalfAway (d / extent))]

lemma abs_wrapDelta_min (extent d : ℝ) (he : 0 < extent) (m : ℤ) :
    |wrapDelta extent d| ≤ |d - (m : ℝ) * extent| := by
  by_cases hmk : m = roundHalfAwayInt (d / extent)
  · rw [hmk, ← wrapDelta_eq_sub_int]
  · set k := roundHalfAwayInt (d / extent) with hk
    have hw : |wrapDelta extent d| ≤ extent / 2 := abs_wrapDelta_le extent d he
    have hrepr : d - (m : ℝ) * extent =
        wrapDelta extent d + ((k - m : ℤ) : ℝ) * extent := by
      rw [wrapDelta_eq_sub_int]
      push_cast
      ring
    have hne : (k - m : ℤ) ≠ 0 := sub_ne_zero.mpr fun h => hmk h.symm
    have habs1 : (1 : ℝ) ≤ |((k - m : ℤ) : ℝ)| := by
      rw [← Int.cast_abs]
      exact_mod_cast Int.one_le_abs hne
    have hcabs : extent ≤ |((k - m : ℤ) : ℝ) * extent| := by
      rw [abs_mul, abs_of_pos he]
      nlinarith
    have htri : |((k - m : ℤ) : ℝ) * extent| - |wrapDelta extent d| ≤
        |wrapDelta extent d + ((k - m : ℤ) : ℝ) * extent| := by
      have h5 := abs_sub_abs_le_abs_sub (((k - m : ℤ) : ℝ) * extent)
        (-(wrapDelta extent d))
      rw [abs_neg, sub_neg_eq_add, add_comm] at h5
      exact h5
    rw [hrepr]
    linarith

lemma roundHalfAwayInt_eq_zero {t : ℝ} (h1 : -(1 / 2) < t) (h2 : t < 1 / 2) :
    roundHalfAwayInt t = 0 := by
  unfold roundHalfAwayInt
  split_ifs with h
  · rw [Int.floor_eq_zero_iff]
    exact Set.mem_Ico.mpr ⟨by linarith, by linarith⟩
  · rw [Int.ceil_eq_zero_iff]
    exact Set.mem_Ioc.mpr ⟨by linarith, by linarith⟩

lemma wrapDelta_zero (extent : ℝ) : wrapDelta extent 0 = 0 := by
  unfold wrapDelta roundHalfAway
  rw [zero_div, roundHalfAwayInt_eq_zero (by norm_num) (by norm_num)]
  simp

lemma wrapDelta_eq_self {extent d : ℝ} (he : 0 < extent)
    (h1 : -(extent / 2) < d) (h2 : d < extent / 2) : wrapDelta extent d = d := by
  unfold wrapDelta roundHalfAway
  have ha : -(1 / 2) < d / extent := by
    rw [lt_div_iff he]
    nlinarith
  have hb : d / extent < 1 / 2 := by
    rw [div_lt_iff he]
    nlinarith
  rw [roundHalfAwayInt_eq_zero ha hb]
  simp

lemma roundHalfAwayInt_nine_tenths : roundHalfAwayInt (9 / 10 : ℝ) = 1 := by
  unfold roundHalfAwayInt
  rw [if_pos (by norm_num : (0 : ℝ) ≤ 9 / 10)]
  apply Int.floor_eq_iff.mpr
  constructor <;> norm_num

lemma roundHalfAwayInt_neg_nine_tenths : roundHalfAwayInt (-(9 / 10) : ℝ) = -1 := by
  unfold roundHalfAwayInt
  rw [if_neg (by norm_num : ¬(0 : ℝ) ≤ -(9 / 10))]
  apply Int.ceil_eq_iff.mpr
  constructor <;> norm_num

/-! ### Basic facts about the masks and zone formulas -/

lemma beta_pos : 0 < beta := by norm_num [beta, rMin, rMax]

lemma beta_lt_one : beta < 1 := by norm_num [beta, rMin, rMax]

lemma repulsionAt_beta : repulsionAt beta = 0 := by
  unfold repulsionAt inverseBeta beta rMin rMax repulsionScale
  norm_num

lemma triangleWaveAt_beta : triangleWaveAt beta = 0 := by
  unfold triangleWaveAt triangleDenominator beta rMin rMax
  rw [show (1 : ℝ) + 15 / 200 - 2 * (15 / 200) = 37 / 40 by norm_num,
    abs_of_nonneg (by norm_num : (0 : ℝ) ≤ 37 / 40)]
  norm_num

lemma triangleWaveAt_one : triangleWaveAt 1 = 0 := by
  unfold triangleWaveAt triangleDenominator beta rMin rMax
  rw [show (1 : ℝ) + 15 / 200 - 2 * 1 = -(37 / 40) by norm_num, abs_neg,
    abs_of_nonneg (by norm_num : (0 : ℝ) ≤ 37 / 40)]
  norm_num

lemma triangleWaveAt_mid : triangleWaveAt ((1 + beta) / 2) = 1 := by
  unfold triangleWaveAt triangleDenominator beta rMin rMax
  rw [show (1 : ℝ) + 15 / 200 - 2 * ((1 + 15 / 200) / 2) = 0 by ring, abs_zero]
  norm_num

lemma mask_exclusive (d : ℝ) : innerMaskAt d = 0 ∨ outerMaskAt d = 0 := by
  unfold innerMaskAt outerMaskAt
  by_cases h : d < beta
  · right
    rw [if_neg]
    rintro ⟨h1, -⟩
    exact absurd h (not_lt.mpr h1)
  · left
    rw [if_neg h]

/-! ### Facts about the active mask and zero-force pairs -/

lemma activeMask_cases (p : Particles n) (W H : ℝ) (i j : Fin n) :
    activeMask p W H i j = 0 ∨ activeMask p W H i j = 1 := by
  unfold activeMask
  split_ifs
  · right
    rfl
  · left
    rfl

lemma activeMask_eq_one_iff (p : Particles n) (W H : ℝ) (i j : Fin n) :
    activeMask p W H i j = 1 ↔
      1e-6 < distanceSquared p W H i j ∧ distanceSquared p W H i j < rMaxSquared := by
  unfold activeMask
  split_ifs with h
  · constructor
    · intro _
      exact ⟨h.2, h.1⟩
    · intro _
      rfl
  · constructor
    · intro h01
      norm_num at h01
    · intro hc
      exact absurd ⟨hc.2, hc.1⟩ h

lemma activeMask_eq_zero_of_small (p : Particles n) (W H : ℝ) (i j : Fin n)
    (h : distanceSquared p W H i j ≤ 1e-6) : activeMask p W H i j = 0 := by
  unfold activeMask
  rw [if_neg]
  rintro ⟨-, h2⟩
  linarith

lemma activeMask_eq_zero_of_large (p : Particles n) (W H : ℝ) (i j : Fin n)
    (h : rMaxSquared ≤ distanceSquared p W H i j) : activeMask p W H i j = 0 := by
  unfold activeMask
  rw [if_neg]
  rintro ⟨h1, -⟩
  linarith

lemma forceTerms_eq_zero_of_mask (p : Particles n) (W H : ℝ) (i j : Fin n)
    (h : activeMask p W H i j = 0) :
    totalForce p W H i j = 0 ∧ forceTermX p W H i j = 0 ∧
      forceTermY p W H i j = 0 := by
  have ht : totalForce p W H i j = 0 := by
    unfold totalForce
    rw [h, zero_mul]
  refine ⟨ht, ?_, ?_⟩
  · unfold forceTermX
    rw [ht, zero_mul, zero_mul]
  · unfold forceTermY
    rw [ht, zero_mul, zero_mul]

/-! ### The self-pair contributes nothing -/

lemma deltaX_self (p : Particles n) (W : ℝ) (i : Fin n) : deltaX p W i i = 0 := by
  unfold deltaX
  rw [sub_self, wrapDelta_zero]

lemma deltaY_self (p : Particles n) (H : ℝ) (i : Fin n) : deltaY p H i i = 0 := by
  unfold deltaY
  rw [sub_self, wrapDelta_zero]

lemma distanceSquared_self (p : Particles n) (W H : ℝ) (i : Fin n) :
    distanceSquared p W H i i = 0 := by
  unfold distanceSquared
  rw [deltaX_self, deltaY_self]
  ring

lemma forceTerms_self (p : Particles n) (W H : ℝ) (i : Fin n) :
    forceTermX p W H i i = 0 ∧ forceTermY p W H i i = 0 :=
  (forceTerms_eq_zero_of_mask p W H i i
    (activeMask_eq_zero_of_small p W H i i
      (by rw [distanceSquared_self]; norm_num))).2

lemma force_single (p : Particles 1) (W H : ℝ) :
    forceX p W H 0 = 0 ∧ forceY p W H 0 = 0 := by
  unfold forceX forceY
  rw [Fin.sum_univ_one, Fin.sum_univ_one]
  exact forceTerms_self p W H 0

/-! ### Facts about the branchless speed cap -/

lemma speed_ge_eps (p : Particles n) (dt W H : ℝ) (i : Fin n) :
    1e-6 ≤ speed p dt W H i := le_max_right _ _

lemma speed_pos (p : Particles n) (dt W H : ℝ) (i : Fin n) :
    0 < speed p dt W H i :=
  lt_of_lt_of_le (by norm_num) (speed_ge_eps p dt W H i)

lemma speedScale_le_one (p : Particles n) (dt W H : ℝ) (i : Fin n) :
    speedScale p dt W H i ≤ 1 := min_le_right _ _

lemma speedScale_nonneg (p : Particles n) (dt W H : ℝ) (i : Fin n) :
    0 ≤ speedScale p dt W H i :=
  le_min (div_nonneg (by norm_num [maxSpeed]) (speed_pos p dt W H i).le) zero_le_one

lemma postSpeed_factor (p : Particles n) (dt W H : ℝ) (i : Fin n) :
    Real.sqrt (velX2 p dt W H i * velX2 p dt W H i +
        velY2 p dt W H i * velY2 p dt W H i) =
      speedScale p dt W H i *
        Real.sqrt (velX1 p dt W H i * velX1 p dt W H i +
          velY1 p dt W H i * velY1 p dt W H i) := by
  have h : velX2 p dt W H i * velX2 p dt W H i +
      velY2 p dt W H i * velY2 p dt W H i =
        speedScale p dt W H i ^ 2 *
          (velX1 p dt W H i * velX1 p dt W H i +
            velY1 p dt W H i * velY1 p dt W H i) := by
    unfold velX2 velY2
    ring
  rw [h, Real.sqrt_mul (sq_nonneg _), Real.sqrt_sq (speedScale_nonneg p dt W H i)]

lemma postSpeed_le_maxSpeed (p : Particles n) (dt W H : ℝ) (i : Fin n) :
    Real.sqrt (velX2 p dt W H i * velX2 p dt W H i +
      velY2 p dt W H i * velY2 p dt W H i) ≤ maxSpeed := by
  rw [postSpeed_factor]
  set s0 := Real.sqrt (velX1 p dt W H i * velX1 p dt W H i +
    velY1 p dt W H i * velY1 p dt W H i) with hs0
  have hs0nn : 0 ≤ s0 := Real.sqrt_nonneg _
  by_cases hle : s0 ≤ maxSpeed
  · calc speedScale p dt W H i * s0 ≤ 1 * s0 :=
        mul_le_mul_of_nonneg_right (speedScale_le_one p dt W H i) hs0nn
      _ = s0 := one_mul _
      _ ≤ maxSpeed := hle
  · push_neg at hle
    have hms : (0 : ℝ) < maxSpeed := by norm_num [maxSpeed]
    have hsp : speed p dt W H i = s0 := by
      unfold speed
      rw [← hs0]
      exact max_eq_left (le_trans (by norm_num [maxSpeed]) hle.le)
    have hscale : speedScale p dt W H i = maxSpeed / s0 := by
      unfold speedScale
      rw [hsp]
      exact min_eq_left ((div_le_one (lt_trans hms hle)).mpr hle.le)
    rw [hscale, div_mul_cancel₀ _ (ne_of_gt (lt_trans hms hle))]

lemma speedScale_eq_one (p : Particles n) (dt W H : ℝ) (i : Fin n)
    (h : Real.sqrt (velX1 p dt W H i * velX1 p dt W H i +
      velY1 p dt W H i * velY1 p dt W H i) ≤ maxSpeed) :
    speedScale p dt W H i = 1 := by
  unfold speedScale
  have hsp : speed p dt W H i ≤ maxSpeed := by
    unfold speed
    exact max_le h (by norm_num [maxSpeed])
  exact min_eq_right ((one_le_div (speed_pos p dt W H i)).mpr hsp)

lemma postSpeed_le_preSpeed (p : Particles n) (dt W H : ℝ) (i : Fin n) :
    Real.sqrt (velX2 p dt W H i * velX2 p dt W H i +
        velY2 p dt W H i * velY2 p dt W H i) ≤
      Real.sqrt (velX1 p dt W H i * velX1 p dt W H i +
        velY1 p dt W H i * velY1 p dt W H i) := by
  rw [postSpeed_factor]
  calc speedScale p dt W H i *
      Real.sqrt (velX1 p dt W H i * velX1 p dt W H i +
        velY1 p dt W H i * velY1 p dt W H i) ≤
      1 * Real.sqrt (velX1 p dt W H i * velX1 p dt W H i +
        velY1 p dt W H i * velY1 p dt W H i) :=
        mul_le_mul_of_nonneg_right (speedScale_le_one p dt W H i) (Real.sqrt_nonneg _)
    _ = _ := one_mul _

/-! ### Evaluation of the near-coincident pair -/

lemma pPair_distSq : distanceSquared pPair 200 200 0 1 = 1e-6 := by
  unfold distanceSquared deltaX deltaY
  simp only [pPair, Matrix.cons_val_zero, Matrix.cons_val_one, Matrix.head_cons]
  rw [show (1 / 1000 : ℝ) - 0 = 1 / 1000 by ring, sub_self, wrapDelta_zero,
    wrapDelta_eq_self (by norm_num) (by norm_num) (by norm_num)]
  norm_num

/-! ### Claim theorems -/

/-- C1: after one `updateSimulation` step with positive world extents, every
particle's position lies in the half-open box `[0, W) x [0, H)`; the final
floor-based toroidal wrap re-establishes this containment invariant. -/
theorem C1_toroidal_containment (p : Particles n) (dt W H : ℝ)
    (hW : 0 < W) (hH : 0 < H) (i : Fin n) :
    0 ≤ (updateSimulation p dt W H).posX i ∧
      (updateSimulation p dt W H).posX i < W ∧
      0 ≤ (updateSimulation p dt W H).posY i ∧
      (updateSimulation p dt W H).posY i < H :=
  ⟨wrapPos_nonneg W _ hW, wrapPos_lt W _ hW, wrapPos_nonneg H _ hH, wrapPos_lt H _ hH⟩

/-- Witness for C1: the containment holds at a concrete one-particle state
with world extents 100 x 100 and `dt = 0`. -/
theorem C1_toroidal_containment_witness :
    (0 : ℝ) < 100 ∧
      (0 ≤ (updateSimulation pOne 0 100 100).posX 0 ∧
        (updateSimulation pOne 0 100 100).posX 0 < 100 ∧
        0 ≤ (updateSimulation pOne 0 100 100).posY 0 ∧
        (updateSimulation pOne 0 100 100).posY 0 < 100) :=
  ⟨by norm_num, C1_toroidal_containment pOne 0 100 100 (by norm_num) (by norm_num) 0⟩

/-- C2: after one step every particle's speed is at most `maxSpeed`; the cap
multiplier is at most one, never increases any particle's speed, and equals
one (leaving the velocity untouched) whenever the pre-cap speed does not
exceed `maxSpeed`. -/
theorem C2_speed_cap (p : Particles n) (dt W H : ℝ) (i : Fin n) :
    Real.sqrt ((updateSimulation p dt W H).velX i * (updateSimulation p dt W H).velX i +
        (updateSimulation p dt W H).velY i * (updateSimulation p dt W H).velY i) ≤
      maxSpeed ∧
      speedScale p dt W H i ≤ 1 ∧
      Real.sqrt (velX2 p dt W H i * velX2 p dt W H i +
          velY2 p dt W H i * velY2 p dt W H i) ≤
        Real.sqrt (velX1 p dt W H i * velX1 p dt W H i +
          velY1 p dt W H i * velY1 p dt W H i) ∧
      (Real.sqrt (velX1 p dt W H i * velX1 p dt W H i +
          velY1 p dt W H i * velY1 p dt W H i) ≤ maxSpeed →
        speedScale p dt W H i = 1) :=
  ⟨postSpeed_le_maxSpeed p dt W H i, speedScale_le_one p dt W H i,
    postSpeed_le_preSpeed p dt W H i, speedScale_eq_one p dt W H i⟩

/-- C3 counterexample: the pair `pPair` has wrapped squared distance `1e-6`,
which is strictly positive and far below `rMaxSquared`, yet the active mask
rejects it (the source requires `distanceSquared > 1e-6f`, not `> 0`) and it
contributes zero force. -/
theorem C3_counterexample :
    0 < distanceSquared pPair 200 200 0 1 ∧
      distanceSquared pPair 200 200 0 1 < rMaxSquared ∧
      activeMask pPair 200 200 0 1 = 0 ∧
      forceTermX pPair 200 200 0 1 = 0 ∧ forceTermY pPair 200 200 0 1 = 0 := by
  have h1 : 0 < distanceSquared pPair 200 200 0 1 := by
    rw [pPair_distSq]
    norm_num
  have h2 : distanceSquared pPair 200 200 0 1 < rMaxSquared := by
    rw [pPair_distSq]
    norm_num [rMaxSquared, rMax]
  have hm := activeMask_eq_zero_of_small pPair 200 200 0 1 (le_of_eq pPair_distSq)
  obtain ⟨-, h3, h4⟩ := forceTerms_eq_zero_of_mask pPair 200 200 0 1 hm
  exact ⟨h1, h2, hm, h3, h4⟩

/-- C3 amended: a neighbor passes the active mask exactly when
`1e-6 < distSq < rMaxSquared`, and every pair failing that condition
contributes zero force. -/
theorem C3_active_mask (p : Particles n) (W H : ℝ) (i j : Fin n) :
    (activeMask p W H i j = 1 ↔
      1e-6 < distanceSquared p W H i j ∧
        distanceSquared p W H i j < rMaxSquared) ∧
      (¬(1e-6 < distanceSquared p W H i j ∧
          distanceSquared p W H i j < rMaxSquared) →
        activeMask p W H i j = 0 ∧ totalForce p W H i j = 0 ∧
          forceTermX p W H i j = 0 ∧ forceTermY p W H i j = 0) := by
  refine ⟨activeMask_eq_one_iff p W H i j, fun h => ?_⟩
  have hm : activeMask p W H i j = 0 := by
    rcases activeMask_cases p W H i j with h0 | h1
    · exact h0
    · exact absurd ((activeMask_eq_one_iff p W H i j).mp h1) h
  obtain ⟨h1, h2, h3⟩ := forceTerms_eq_zero_of_mask p W H i j hm
  exact ⟨hm, h1, h2, h3⟩

/-- C4: `initSimulation` draws the y coordinate from the same
`[0, screenWidth)` distribution as x (the single distribution is built from
`screenWidth` and the `screenHeight` parameter is unused), so with
`screenWidth = 200, screenHeight = 100` and every unit draw `3/4` the
y position is 150, outside `[0, worldHeight)`. Velocities are zeroed and
species is `index / perSpecies`, as the claim states. -/
theorem C4_init_y_uses_width :
    (initSimulation (fun _ => 3 / 4) 200 100).posY idx0 = 150 ∧
      ¬((initSimulation (fun _ => 3 / 4) 200 100).posY idx0 < 100) ∧
      (∀ i : Fin numParticles,
        (initSimulation (fun _ => 3 / 4) 200 100).velX i = 0 ∧
        (initSimulation (fun _ => 3 / 4) 200 100).velY i = 0 ∧
        (initSimulation (fun _ => 3 / 4) 200 100).species i = i.val / perSpecies) := by
  have h1 : (initSimulation (fun _ => 3 / 4) 200 100).posY idx0 = 150 := by
    show (3 / 4 : ℝ) * 200 = 150
    norm_num
  refine ⟨h1, by rw [h1]; norm_num, fun i => ⟨rfl, rfl, rfl⟩⟩

/-- C6: the toroidal delta fold returns a representative of `d` modulo
`extent` of absolute value at most `extent / 2`, minimal among all
representatives; at width 100, positions 5 and 95 yield wrapped deltas
-10 and 10, not +-90. -/
theorem C6_wrap_shortest (extent d : ℝ) (he : 0 < extent) :
    (∃ k : ℤ, wrapDelta extent d = d - (k : ℝ) * extent) ∧
      |wrapDelta extent d| ≤ extent / 2 ∧
      (∀ m : ℤ, |wrapDelta extent d| ≤ |d - (m : ℝ) * extent|) ∧
      wrapDelta 100 (95 - 5) = -10 ∧ wrapDelta 100 (5 - 95) = 10 := by
  refine ⟨⟨roundHalfAwayInt (d / extent), wrapDelta_eq_sub_int extent d⟩,
    abs_wrapDelta_le extent d he, fun m => abs_wrapDelta_min extent d he m, ?_, ?_⟩
  · rw [show (95 : ℝ) - 5 = 90 by norm_num]
    unfold wrapDelta roundHalfAway
    rw [show (90 : ℝ) / 100 = 9 / 10 by norm_num, roundHalfAwayInt_nine_tenths]
    norm_num
  · rw [show (5 : ℝ) - 95 = -90 by norm_num]
    unfold wrapDelta roundHalfAway
    rw [show (-90 : ℝ) / 100 = -(9 / 10) by norm_num, roundHalfAwayInt_neg_nine_tenths]
    norm_num

/-- Witness for C6: concrete instance at extent 100, raw delta 90. -/
theorem C6_wrap_shortest_witness :
    (0 : ℝ) < 100 ∧ |wrapDelta 100 90| ≤ 100 / 2 ∧
      wrapDelta 100 (95 - 5) = -10 :=
  ⟨by norm_num, (C6_wrap_shortest 100 90 (by norm_num)).2.1,
    (C6_wrap_shortest 100 90 (by norm_num)).2.2.2.1⟩

/-- C7: a lone particle receives zero force; its stored velocity is the old
velocity scaled by `1 - friction` and then only by the speed cap (which
never amplifies, so the speed decays), and its position advances by
`vel * dt` before the toroidal wrap. -/
theorem C7_self_exclusion (p : Particles 1) (dt W H : ℝ) :
    forceX p W H 0 = 0 ∧ forceY p W H 0 = 0 ∧
      (updateSimulation p dt W H).velX 0 =
        p.velX 0 * (1 - friction) * speedScale p dt W H 0 ∧
      (updateSimulation p dt W H).velY 0 =
        p.velY 0 * (1 - friction) * speedScale p dt W H 0 ∧
      speedScale p dt W H 0 ≤ 1 ∧
      |(updateSimulation p dt W H).velX 0| ≤ |p.velX 0| * (1 - friction) ∧
      |(updateSimulation p dt W H).velY 0| ≤ |p.velY 0| * (1 - friction) ∧
      (updateSimulation p dt W H).posX 0 =
        wrapPos W (p.posX 0 + (updateSimulation p dt W H).velX 0 * dt) ∧
      (updateSimulation p dt W H).posY 0 =
        wrapPos H (p.posY 0 + (updateSimulation p dt W H).velY 0 * dt) := by
  obtain ⟨hfx, hfy⟩ := force_single p W H
  have hfr : (0 : ℝ) ≤ 1 - friction := by norm_num [friction]
  have hvx1 : velX1 p dt W H 0 = p.velX 0 * (1 - friction) := by
    unfold velX1
    rw [hfx, zero_mul, add_zero]
  have hvy1 : velY1 p dt W H 0 = p.velY 0 * (1 - friction) := by
    unfold velY1
    rw [hfy, zero_mul, add_zero]
  have hvx2 : (updateSimulation p dt W H).velX 0 =
      p.velX 0 * (1 - friction) * speedScale p dt W H 0 := by
    show velX2 p dt W H 0 = _
    unfold velX2
    rw [hvx1]
  have hvy2 : (updateSimulation p dt W H).velY 0 =
      p.velY 0 * (1 - friction) * speedScale p dt W H 0 := by
    show velY2 p dt W H 0 = _
    unfold velY2
    rw [hvy1]
  have hscale1 := speedScale_le_one p dt W H 0
  have hscale0 := speedScale_nonneg p dt W H 0
  have hdx : |(updateSimulation p dt W H).velX 0| ≤ |p.velX 0| * (1 - friction) := by
    rw [hvx2, abs_mul, abs_mul, abs_of_nonneg hfr, abs_of_nonneg hscale0]
    exact mul_le_of_le_one_right (by positivity) hscale1
  have hdy : |(updateSimulation p dt W H).velY 0| ≤ |p.velY 0| * (1 - friction) := by
    rw [hvy2, abs_mul, abs_mul, abs_of_nonneg hfr, abs_of_nonneg hscale0]
    exact mul_le_of_le_one_right (by positivity) hscale1
  exact ⟨hfx, hfy, hvx2, hvy2, hscale1, hdx, hdy, rfl, rfl⟩

/-- C9: every division in the step is well-defined: the guarded distance and
guarded speed are bounded below by `1e-6` hence nonzero, and the remaining
divisors (`beta`, `triangleDenominator`, `rMax`, and positive world extents)
are nonzero. -/
theorem C9_epsilon_guards (p : Particles n) (dt W H : ℝ)
    (hW : 0 < W) (hH : 0 < H) (i j : Fin n) :
    1e-6 ≤ distance p W H i j ∧ distance p W H i j ≠ 0 ∧
      1e-6 ≤ speed p dt W H i ∧ speed p dt W H i ≠ 0 ∧
      beta ≠ 0 ∧ triangleDenominator ≠ 0 ∧ rMax ≠ 0 ∧ W ≠ 0 ∧ H ≠ 0 := by
  have hd : 1e-6 ≤ distance p W H i j := le_max_right _ _
  have hs : 1e-6 ≤ speed p dt W H i := speed_ge_eps p dt W H i
  refine ⟨hd, ?_, hs, ?_, ?_, ?_, ?_, hW.ne', hH.ne'⟩
  · exact ne_of_gt (lt_of_lt_of_le (by norm_num) hd)
  · exact ne_of_gt (lt_of_lt_of_le (by norm_num) hs)
  · norm_num [beta, rMin, rMax]
  · norm_num [triangleDenominator, beta, rMin, rMax]
  · norm_num [rMax]

/-- Witness for C9 at a concrete one-particle state. -/
theorem C9_epsilon_guards_witness :
    (0 : ℝ) < 100 ∧
      (1e-6 ≤ distance pOne 100 100 0 0 ∧ distance pOne 100 100 0 0 ≠ 0 ∧
        1e-6 ≤ speed pOne 0 100 100 0 ∧ speed pOne 0 100 100 0 ≠ 0 ∧
        beta ≠ 0 ∧ triangleDenominator ≠ 0 ∧ rMax ≠ 0 ∧ (100 : ℝ) ≠ 0 ∧
        (100 : ℝ) ≠ 0) :=
  ⟨by norm_num, C9_epsilon_guards pOne 0 100 100 (by norm_num) (by norm_num) 0 0⟩

/-- C10: a pair whose wrapped squared distance is positive but at most `1e-6`
is rejected by the active mask (which requires `distanceSquared > 1e-6f`)
and exerts zero force. -/
theorem C10_near_coincident_zero_force (p : Particles n) (W H : ℝ) (i j : Fin n)
    (hpos : 0 < distanceSquared p W H i j)
    (hsmall : distanceSquared p W H i j ≤ 1e-6) :
    activeMask p W H i j = 0 ∧ totalForce p W H i j = 0 ∧
      forceTermX p W H i j = 0 ∧ forceTermY p W H i j = 0 := by
  have hm := activeMask_eq_zero_of_small p W H i j hsmall
  obtain ⟨h1, h2, h3⟩ := forceTerms_eq_zero_of_mask p W H i j hm
  exact ⟨hm, h1, h2, h3⟩

/-- Witness for C10: the concrete pair at distance `1/1000`. -/
theorem C10_near_coincident_zero_force_witness :
    0 < distanceSquared pPair 200 200 0 1 ∧
      distanceSquared pPair 200 200 0 1 ≤ 1e-6 ∧
      activeMask pPair 200 200 0 1 = 0 ∧ totalForce pPair 200 200 0 1 = 0 := by
  have h1 : 0 < distanceSquared pPair 200 200 0 1 := by
    rw [pPair_distSq]
    norm_num
  have h2 : distanceSquared pPair 200 200 0 1 ≤ 1e-6 := le_of_eq pPair_distSq
  obtain ⟨hm, ht, -, -⟩ := C10_near_coincident_zero_force pPair 200 200 0 1 h1 h2
  exact ⟨h1, h2, hm, ht⟩

/-! ### Zone-boundary behavior of the force magnitude -/

lemma innerMaskAt_of_lt {d : ℝ} (h : d < beta) : innerMaskAt d = 1 := if_pos h

lemma innerMaskAt_of_ge {d : ℝ} (h : beta ≤ d) : innerMaskAt d = 0 :=
  if_neg (not_lt.mpr h)

lemma outerMaskAt_of_mem {d : ℝ} (h1 : beta ≤ d) (h2 : d < 1) :
    outerMaskAt d = 1 := if_pos ⟨h1, h2⟩

lemma outerMaskAt_of_lt {d : ℝ} (h : d < beta) : outerMaskAt d = 0 :=
  if_neg fun hc => absurd h (not_lt.mpr hc.1)

lemma outerMaskAt_of_ge_one {d : ℝ} (h : 1 ≤ d) : outerMaskAt d = 0 :=
  if_neg fun hc => absurd hc.2 (not_lt.mpr h)

lemma forceMag_left (m : ℝ) : ∀ d ∈ Iic beta, forceMagnitudeAt m d = repulsionAt d := by
  intro d hd
  rcases lt_or_eq_of_le (mem_Iic.mp hd) with h | h
  · unfold forceMagnitudeAt
    rw [innerMaskAt_of_lt h, outerMaskAt_of_lt h, one_mul, zero_mul, add_zero]
  · rw [h, repulsionAt_beta]
    unfold forceMagnitudeAt
    rw [innerMaskAt_of_ge le_rfl, outerMaskAt_of_mem le_rfl beta_lt_one,
      triangleWaveAt_beta]
    ring

lemma forceMag_right (m d : ℝ) (h1 : beta ≤ d) (h2 : d < 1) :
    forceMagnitudeAt m d = m * forceScale * triangleWaveAt d := by
  unfold forceMagnitudeAt
  rw [innerMaskAt_of_ge h1, outerMaskAt_of_mem h1 h2, zero_mul, one_mul, zero_add]

lemma forceMag_of_ge_one (m d : ℝ) (h : 1 ≤ d) : forceMagnitudeAt m d = 0 := by
  unfold forceMagnitudeAt
  rw [innerMaskAt_of_ge (le_trans beta_lt_one.le h), outerMaskAt_of_ge_one h]
  ring

lemma forceMag_at_beta (m : ℝ) : forceMagnitudeAt m beta = 0 := by
  rw [forceMag_left m beta (mem_Iic.mpr le_rfl), repulsionAt_beta]

lemma forceMag_at_one (m : ℝ) : forceMagnitudeAt m 1 = 0 :=
  forceMag_of_ge_one m 1 le_rfl

lemma repulsionAt_continuous : Continuous repulsionAt := by
  unfold repulsionAt
  exact ((continuous_id.mul continuous_const).sub continuous_const).mul continuous_const

lemma waveFun_continuous (m : ℝ) :
    Continuous fun d : ℝ => m * forceScale * triangleWaveAt d := by
  unfold triangleWaveAt
  exact continuous_const.mul (continuous_const.sub
    ((continuous_const.sub (continuous_const.mul continuous_id)).abs.div_const _))

lemma forceMag_contAt_beta (m : ℝ) : ContinuousAt (forceMagnitudeAt m) beta := by
  rw [continuousAt_iff_continuous_left_right]
  constructor
  · exact repulsionAt_continuous.continuousWithinAt.congr (forceMag_left m)
      (forceMag_left m beta (mem_Iic.mpr le_rfl))
  · have hf : ContinuousWithinAt (fun d : ℝ => m * forceScale * triangleWaveAt d)
        (Ici beta) beta := (waveFun_continuous m).continuousWithinAt
    apply hf.congr_of_eventuallyEq
    · filter_upwards [self_mem_nhdsWithin,
        mem_nhdsWithin_of_mem_nhds (Iio_mem_nhds beta_lt_one)] with d hd1 hd2
      exact forceMag_right m d hd1 hd2
    · rw [forceMag_at_beta, triangleWaveAt_beta, mul_zero]

lemma forceMag_contAt_one (m : ℝ) : ContinuousAt (forceMagnitudeAt m) 1 := by
  rw [continuousAt_iff_continuous_left_right]
  constructor
  · have hf : ContinuousWithinAt (fun d : ℝ => m * forceScale * triangleWaveAt d)
        (Iic 1) 1 := (waveFun_continuous m).continuousWithinAt
    apply hf.congr_of_eventuallyEq
    · filter_upwards [self_mem_nhdsWithin,
        mem_nhdsWithin_of_mem_nhds (Ioi_mem_nhds beta_lt_one)] with d hd1 hd2
      rcases lt_or_eq_of_le (mem_Iic.mp hd1) with h | h
      · exact forceMag_right m d (le_of_lt hd2) h
      · rw [h, forceMag_at_one, triangleWaveAt_one, mul_zero]
    · rw [forceMag_at_one, triangleWaveAt_one, mul_zero]
  · have hf : ContinuousWithinAt (fun _ : ℝ => (0 : ℝ)) (Ici 1) 1 :=
      continuous_const.continuousWithinAt
    exact hf.congr (fun y hy => forceMag_of_ge_one m y (mem_Ici.mp hy))
      (forceMag_at_one m)

/-- C5: the two zone masks are never simultaneously active; the repulsion
formula vanishes at `normDist = beta`; the triangular envelope vanishes at
`beta` and `1` and peaks at 1 at the midpoint `(1 + beta) / 2`; and for every
matrix coefficient the combined masked force magnitude is continuous at both
zone boundaries, where it vanishes. -/
theorem C5_zone_continuity :
    (∀ d : ℝ, innerMaskAt d = 0 ∨ outerMaskAt d = 0) ∧
      repulsionAt beta = 0 ∧ triangleWaveAt beta = 0 ∧ triangleWaveAt 1 = 0 ∧
      triangleWaveAt ((1 + beta) / 2) = 1 ∧
      (∀ m : ℝ, ContinuousAt (forceMagnitudeAt m) beta ∧
        forceMagnitudeAt m beta = 0 ∧
        ContinuousAt (forceMagnitudeAt m) 1 ∧ forceMagnitudeAt m 1 = 0) :=
  ⟨mask_exclusive, repulsionAt_beta, triangleWaveAt_beta, triangleWaveAt_one,
    triangleWaveAt_mid, fun m =>
      ⟨forceMag_contAt_beta m, forceMag_at_beta m, forceMag_contAt_one m,
        forceMag_at_one m⟩⟩

/-! ### Evaluation of the end-to-end cohesion scenario -/

lemma wrapPos_eq_self {extent x : ℝ} (h1 : 0 ≤ x) (h2 : x < extent) :
    wrapPos extent x = x := by
  unfold wrapPos
  have he : 0 < extent := lt_of_le_of_lt h1 h2
  have hz : ⌊x / extent⌋ = 0 := by
    rw [Int.floor_eq_zero_iff]
    exact Set.mem_Ico.mpr ⟨div_nonneg h1 he.le, (div_lt_one he).mpr h2⟩
  rw [hz]
  simp

lemma pCoh_species (i : Fin 2) : pCohesion.species i = 0 := by
  fin_cases i <;> rfl

lemma pCoh_deltas :
    deltaX pCohesion 200 0 1 = 60 ∧ deltaY pCohesion 200 0 1 = 80 ∧
      deltaX pCohesion 200 1 0 = -60 ∧ deltaY pCohesion 200 1 0 = -80 := by
  unfold deltaX deltaY
  simp only [pCohesion, Matrix.cons_val_zero, Matrix.cons_val_one, Matrix.head_cons]
  refine ⟨?_, ?_, ?_, ?_⟩
  · rw [show (60 : ℝ) - 0 = 60 by ring]
    exact wrapDelta_eq_self (by norm_num) (by norm_num) (by norm_num)
  · rw [show (80 : ℝ) - 0 = 80 by ring]
    exact wrapDelta_eq_self (by norm_num) (by norm_num) (by norm_num)
  · rw [show (0 : ℝ) - 60 = -60 by ring]
    exact wrapDelta_eq_self (by norm_num) (by norm_num) (by norm_num)
  · rw [show (0 : ℝ) - 80 = -80 by ring]
    exact wrapDelta_eq_self (by norm_num) (by norm_num) (by norm_num)

lemma pCoh_distSq01 : distanceSquared pCohesion 200 200 0 1 = 10000 := by
  unfold distanceSquared
  rw [pCoh_deltas.1, pCoh_deltas.2.1]
  norm_num

lemma pCoh_distSq10 : distanceSquared pCohesion 200 200 1 0 = 10000 := by
  unfold distanceSquared
  rw [pCoh_deltas.2.2.1, pCoh_deltas.2.2.2]
  norm_num

lemma sqrt_ten_thousand : Real.sqrt 10000 = 100 := by
  rw [show (10000 : ℝ) = 100 ^ 2 by norm_num,
    Real.sqrt_sq (by norm_num : (0 : ℝ) ≤ 100)]

lemma pCoh_dist01 : distance pCohesion 200 200 0 1 = 100 := by
  unfold distance
  rw [pCoh_distSq01, sqrt_ten_thousand]
  exact max_eq_left (by norm_num)

lemma pCoh_dist10 : distance pCohesion 200 200 1 0 = 100 := by
  unfold distance
  rw [pCoh_distSq10, sqrt_ten_thousand]
  exact max_eq_left (by norm_num)

lemma pCoh_norm01 : normalizedDistance pCohesion 200 200 0 1 = 1 / 2 := by
  unfold normalizedDistance
  rw [pCoh_dist01]
  norm_num [rMax]

lemma pCoh_norm10 : normalizedDistance pCohesion 200 200 1 0 = 1 / 2 := by
  unfold normalizedDistance
  rw [pCoh_dist10]
  norm_num [rMax]

lemma triangleWaveAt_half : triangleWaveAt (1 / 2) = 34 / 37 := by
  unfold triangleWaveAt triangleDenominator beta rMin rMax
  rw [show (1 : ℝ) + 15 / 200 - 2 * (1 / 2) = 3 / 40 by norm_num,
    abs_of_nonneg (by norm_num : (0 : ℝ) ≤ 3 / 40)]
  norm_num

lemma pCoh_matrix (i j : Fin 2) : matrixValue pCohesion i j = 25 := by
  unfold matrixValue
  rw [pCoh_species i, pCoh_species j]
  rw [show forceMatrix 0 0 = selfCoeff from rfl]
  norm_num [selfCoeff, forceScale]

lemma beta_le_half : beta ≤ 1 / 2 := by norm_num [beta, rMin, rMax]

lemma pCoh_active01 : activeMask pCohesion 200 200 0 1 = 1 := by
  unfold activeMask
  rw [pCoh_distSq01, if_pos]
  constructor
  · norm_num [rMaxSquared, rMax]
  · norm_num

lemma pCoh_active10 : activeMask pCohesion 200 200 1 0 = 1 := by
  unfold activeMask
  rw [pCoh_distSq10, if_pos]
  constructor
  · norm_num [rMaxSquared, rMax]
  · norm_num

lemma pCoh_totalForce01 : totalForce pCohesion 200 200 0 1 = 850 / 37 := by
  unfold totalForce innerMask outerMask repulsionForce interactionForce triangleWave
  rw [pCoh_norm01, pCoh_active01, innerMaskAt_of_ge beta_le_half,
    outerMaskAt_of_mem beta_le_half (by norm_num), triangleWaveAt_half, pCoh_matrix]
  norm_num

lemma pCoh_totalForce10 : totalForce pCohesion 200 200 1 0 = 850 / 37 := by
  unfold totalForce innerMask outerMask repulsionForce interactionForce triangleWave
  rw [pCoh_norm10, pCoh_active10, innerMaskAt_of_ge beta_le_half,
    outerMaskAt_of_mem beta_le_half (by norm_num), triangleWaveAt_half, pCoh_matrix]
  norm_num

lemma pCoh_forceX0 : forceX pCohesion 200 200 0 = 510 / 37 := by
  unfold forceX
  rw [Fin.sum_univ_two, (forceTerms_self pCohesion 200 200 0).1]
  have h01 : forceTermX pCohesion 200 200 0 1 = 510 / 37 := by
    unfold forceTermX inverseDistance
    rw [pCoh_totalForce01, pCoh_deltas.1, pCoh_dist01]
    norm_num
  rw [h01, zero_add]

lemma pCoh_forceY0 : forceY pCohesion 200 200 0 = 680 / 37 := by
  unfold forceY
  rw [Fin.sum_univ_two, (forceTerms_self pCohesion 200 200 0).2]
  have h01 : forceTermY pCohesion 200 200 0 1 = 680 / 37 := by
    unfold forceTermY inverseDistance
    rw [pCoh_totalForce01, pCoh_deltas.2.1, pCoh_dist01]
    norm_num
  rw [h01, zero_add]

lemma pCoh_forceX1 : forceX pCohesion 200 200 1 = -(510 / 37) := by
  unfold forceX
  rw [Fin.sum_univ_two, (forceTerms_self pCohesion 200 200 1).1]
  have h10 : forceTermX pCohesion 200 200 1 0 = -(510 / 37) := by
    unfold forceTermX inverseDistance
    rw [pCoh_totalForce10, pCoh_deltas.2.2.1, pCoh_dist10]
    norm_num
  rw [h10, add_zero]

lemma pCoh_forceY1 : forceY pCohesion 200 200 1 = -(680 / 37) := by
  unfold forceY
  rw [Fin.sum_univ_two, (forceTerms_self pCohesion 200 200 1).2]
  have h10 : forceTermY pCohesion 200 200 1 0 = -(680 / 37) := by
    unfold forceTermY inverseDistance
    rw [pCoh_totalForce10, pCoh_deltas.2.2.2, pCoh_dist10]
    norm_num
  rw [h10, add_zero]

lemma pCoh_vel1 (dt : ℝ) :
    velX1 pCohesion dt 200 200 0 = 510 / 37 * dt ∧
      velY1 pCohesion dt 200 200 0 = 680 / 37 * dt ∧
      velX1 pCohesion dt 200 200 1 = -(510 / 37) * dt ∧
      velY1 pCohesion dt 200 200 1 = -(680 / 37) * dt := by
  unfold velX1 velY1
  rw [pCoh_forceX0, pCoh_forceY0, pCoh_forceX1, pCoh_forceY1]
  simp only [pCohesion, Matrix.cons_val_zero, Matrix.cons_val_one, Matrix.head_cons]
  refine ⟨by ring, by ring, by ring, by ring⟩

lemma pCoh_scale (dt : ℝ) (h0 : 0 ≤ dt) (hcap : 850 / 37 * dt ≤ 300) :
    speedScale pCohesion dt 200 200 0 = 1 ∧ speedScale pCohesion dt 200 200 1 = 1 := by
  obtain ⟨hx0, hy0, hx1, hy1⟩ := pCoh_vel1 dt
  have hdtn : (0 : ℝ) ≤ 850 / 37 * dt := mul_nonneg (by norm_num) h0
  constructor
  · apply speedScale_eq_one
    rw [hx0, hy0, show 510 / 37 * dt * (510 / 37 * dt) + 680 / 37 * dt * (680 / 37 * dt) =
      (850 / 37 * dt) ^ 2 by ring, Real.sqrt_sq hdtn]
    unfold maxSpeed
    exact hcap
  · apply speedScale_eq_one
    rw [hx1, hy1, show -(510 / 37) * dt * (-(510 / 37) * dt) +
      -(680 / 37) * dt * (-(680 / 37) * dt) = (850 / 37 * dt) ^ 2 by ring,
      Real.sqrt_sq hdtn]
    unfold maxSpeed
    exact hcap

lemma pCoh_step (dt : ℝ) (h0 : 0 ≤ dt) (hcap : 850 / 37 * dt ≤ 300)
    (hm : 850 / 37 * dt ^ 2 ≤ 100) :
    (updateSimulation pCohesion dt 200 200).posX 0 = 510 / 37 * dt ^ 2 ∧
      (updateSimulation pCohesion dt 200 200).posY 0 = 680 / 37 * dt ^ 2 ∧
      (updateSimulation pCohesion dt 200 200).posX 1 = 60 - 510 / 37 * dt ^ 2 ∧
      (updateSimulation pCohesion dt 200 200).posY 1 = 80 - 680 / 37 * dt ^ 2 := by
  obtain ⟨hx0, hy0, hx1, hy1⟩ := pCoh_vel1 dt
  obtain ⟨hs0, hs1⟩ := pCoh_scale dt h0 hcap
  have hsq : (0 : ℝ) ≤ dt ^ 2 := sq_nonneg dt
  refine ⟨?_, ?_, ?_, ?_⟩
  · show wrapPos 200 (posX1 pCohesion dt 200 200 0) = _
    unfold posX1 velX2
    rw [hx0, hs0, mul_one]
    simp only [pCohesion, Matrix.cons_val_zero]
    rw [show (0 : ℝ) + 510 / 37 * dt * dt = 510 / 37 * dt ^ 2 by ring]
    exact wrapPos_eq_self (by positivity) (by nlinarith)
  · show wrapPos 200 (posY1 pCohesion dt 200 200 0) = _
    unfold posY1 velY2
    rw [hy0, hs0, mul_one]
    simp only [pCohesion, Matrix.cons_val_zero]
    rw [show (0 : ℝ) + 680 / 37 * dt * dt = 680 / 37 * dt ^ 2 by ring]
    exact wrapPos_eq_self (by positivity) (by nlinarith)
  · show wrapPos 200 (posX1 pCohesion dt 200 200 1) = _
    unfold posX1 velX2
    rw [hx1, hs1, mul_one]
    simp only [pCohesion, Matrix.cons_val_one, Matrix.head_cons]
    rw [show (60 : ℝ) + -(510 / 37) * dt * dt = 60 - 510 / 37 * dt ^ 2 by ring]
    exact wrapPos_eq_self (by nlinarith) (by nlinarith)
  · show wrapPos 200 (posY1 pCohesion dt 200 200 1) = _
    unfold posY1 velY2
    rw [hy1, hs1, mul_one]
    simp only [pCohesion, Matrix.cons_val_one, Matrix.head_cons]
    rw [show (80 : ℝ) + -(680 / 37) * dt * dt = 80 - 680 / 37 * dt ^ 2 by ring]
    exact wrapPos_eq_self (by nlinarith) (by nlinarith)

lemma pCoh_sep_after (dt : ℝ) (h0 : 0 ≤ dt) (hcap : 850 / 37 * dt ≤ 300)
    (hm : 850 / 37 * dt ^ 2 ≤ 100) :
    distanceSquared (updateSimulation pCohesion dt 200 200) 200 200 0 1 =
      10000 - 400 * (850 / 37 * dt ^ 2) + 4 * (850 / 37 * dt ^ 2) ^ 2 := by
  obtain ⟨hpx0, hpy0, hpx1, hpy1⟩ := pCoh_step dt h0 hcap hm
  have hsq : (0 : ℝ) ≤ dt ^ 2 := sq_nonneg dt
  unfold distanceSquared deltaX deltaY
  rw [hpx0, hpy0, hpx1, hpy1]
  have hdx : wrapDelta 200 (60 - 510 / 37 * dt ^ 2 - 510 / 37 * dt ^ 2) =
      60 - 510 / 37 * dt ^ 2 - 510 / 37 * dt ^ 2 :=
    wrapDelta_eq_self (by norm_num) (by linarith) (by linarith)
  have hdy : wrapDelta 200 (80 - 680 / 37 * dt ^ 2 - 680 / 37 * dt ^ 2) =
      80 - 680 / 37 * dt ^ 2 - 680 / 37 * dt ^ 2 :=
    wrapDelta_eq_self (by norm_num) (by linarith) (by linarith)
  rw [hdx, hdy]
  ring

/-- C8 fails as stated for arbitrary positive `dt`: at
`dt = sqrt(74/17) ≈ 2.09` the two same-species particles of `pCohesion`
(at wrapped distance `rMax / 2 = 100` with positive self-affinity) exactly
swap positions, so their wrapped separation does not strictly decrease. -/
theorem C8_counterexample :
    0 < Real.sqrt (74 / 17) ∧
      distance pCohesion 200 200 0 1 = rMax / 2 ∧
      0 < forceMatrix (pCohesion.species 0) (pCohesion.species 1) ∧
      ¬(distanceSquared (updateSimulation pCohesion (Real.sqrt (74 / 17)) 200 200)
          200 200 0 1 <
        distanceSquared pCohesion 200 200 0 1) := by
  have hpos : 0 < Real.sqrt (74 / 17) := Real.sqrt_pos.mpr (by norm_num)
  have hsq : Real.sqrt (74 / 17) ^ 2 = 74 / 17 := Real.sq_sqrt (by norm_num)
  have h3 : (3 : ℝ) = Real.sqrt 9 := by
    rw [show (9 : ℝ) = 3 ^ 2 by norm_num, Real.sqrt_sq (by norm_num : (0 : ℝ) ≤ 3)]
  have hle3 : Real.sqrt (74 / 17) ≤ 3 := by
    rw [h3]
    exact Real.sqrt_le_sqrt (by norm_num)
  have hcap : 850 / 37 * Real.sqrt (74 / 17) ≤ 300 := by linarith
  have hm : 850 / 37 * Real.sqrt (74 / 17) ^ 2 ≤ 100 := by
    rw [hsq]
    norm_num
  have hafter := pCoh_sep_after (Real.sqrt (74 / 17)) hpos.le hcap hm
  rw [hsq] at hafter
  refine ⟨hpos, ?_, ?_, ?_⟩
  · rw [pCoh_dist01]
    norm_num [rMax]
  · rw [pCoh_species 0, pCoh_species 1, show forceMatrix 0 0 = selfCoeff from rfl]
    norm_num [selfCoeff]
  · rw [hafter, pCoh_distSq01]
    norm_num

/-- C8 amended: for every `dt` in `(0, 1/30]` (the program clamps `dt` to at
most `1/30` before calling `updateSimulation`), one step strictly decreases
the wrapped separation of the two same-species particles of the cohesion
scenario, and neither particle's resulting speed exceeds `maxSpeed`. -/
theorem C8_cohesion_step (dt : ℝ) (hdt : 0 < dt) (hclamp : dt ≤ 1 / 30) :
    distanceSquared (updateSimulation pCohesion dt 200 200) 200 200 0 1 <
      distanceSquared pCohesion 200 200 0 1 ∧
      (∀ i : Fin 2,
        Real.sqrt ((updateSimulation pCohesion dt 200 200).velX i *
            (updateSimulation pCohesion dt 200 200).velX i +
          (updateSimulation pCohesion dt 200 200).velY i *
            (updateSimulation pCohesion dt 200 200).velY i) ≤ maxSpeed) := by
  have hsqpos : 0 < dt ^ 2 := by positivity
  have hsqle : dt ^ 2 ≤ 1 / 900 := by nlinarith
  have hcap : 850 / 37 * dt ≤ 300 := by nlinarith
  have hm : 850 / 37 * dt ^ 2 ≤ 100 := by nlinarith
  constructor
  · rw [pCoh_sep_after dt hdt.le hcap hm, pCoh_distSq01]
    nlinarith
  · exact fun i => postSpeed_le_maxSpeed pCohesion dt 200 200 i

/-- Witness for the amended C8 at the concrete clamped time step `1/30`. -/
theorem C8_cohesion_step_witness :
    (0 : ℝ) < 1 / 30 ∧ (1 / 30 : ℝ) ≤ 1 / 30 ∧
      distanceSquared (updateSimulation pCohesion (1 / 30) 200 200) 200 200 0 1 <
        distanceSquared pCohesion 200 200 0 1 :=
  ⟨by norm_num, le_refl _, (C8_cohesion_step (1 / 30) (by norm_num) (le_refl _)).1⟩

end

end Soup
